import Mathlib

/-!
Verification of the transit data engine and arrival-watch scheduler of the
spb_arrival_bot repository, as a shallow embedding in Lean.

The embedding follows `src/gtfs.rs` and `src/tg_bot.rs`:
Rust `HashMap` is modelled as a function into `Option`, `Result` as `Except`,
panics as `Option.none` at the function boundary, and the body of the polling
loop in `look_for_transport` as a pure per-tick decision function.
-/

namespace SpbArrival

/-! ### Per-tick reconciliation (loop body of `look_for_transport`, tg_bot.rs 694-767)

One iteration of the polling loop, given the already-fetched forecast result
and the timetable computed once at watch start.  `forecast` is the list of
waiting times returned by `arrival_forecast`, `timetable` the list returned by
`arrival_timetable`, `leeway` the leeway in minutes, `now` the value of
`Local::now().timestamp()` at this tick. -/

/-- Outcome of one polling tick: continue to the next tick, send the
live-data notification, or send the schedule-fallback notification. -/
inductive Decision where
  | keepWaiting
  | notifyLive
  | notifyFallback
deriving DecidableEq

def i64Min : Int := -(2 ^ 63)

def i64Max : Int := 2 ^ 63 - 1

/-- Rust `i64::checked_sub`: the difference when it fits in a signed 64-bit
integer, `none` on overflow (tg_bot.rs 741). -/
def checkedSub (a b : Int) : Option Int :=
  if i64Min ≤ a - b ∧ a - b ≤ i64Max then some (a - b) else none

/-- One iteration of the polling loop of `look_for_transport`
(tg_bot.rs 695-764): filter the forecast to waiting times still beyond the
leeway window; if none remain, fall back to the static timetable shifted by
`leeway * 60` and fire when any entry is less than 60 seconds away; otherwise
fire on live data when any candidate's remaining time is below 60 seconds. -/
def look_for_transport_tick (forecast timetable : List Int) (leeway now : Int) :
    Decision :=
  let waiting_list := forecast.filter (fun x => decide (x - leeway * 60 > 0))
  if waiting_list.isEmpty then
    let time := now + leeway * 60
    let next_on_timetable :=
      timetable.filterMap (fun t => if t - time > 0 then some (t - time) else none)
    if next_on_timetable.any (fun t => decide (t < 60)) then
      Decision.notifyFallback
    else
      Decision.keepWaiting
  else
    if waiting_list.any (fun time =>
        match checkedSub time (leeway * 60) with
        | some time_left => decide (time_left < 60)
        | none => false) then
      Decision.notifyLive
    else
      Decision.keepWaiting

/-! ### Static feed data model (gtfs.rs 16-100) -/

abbrev RouteId := String

abbrev RouteNumber := String

abbrev RouteName := String

abbrev StopId := String

abbrev StopName := String

abbrev TripId := String

/-- Vehicle kinds (gtfs.rs 16-21). -/
inductive Vehicle where
  | bus
  | tram
  | trolley
deriving DecidableEq

/-- The `FromStr` impl for `Vehicle` (gtfs.rs 38-48), with `Option` standing
for the `Result`. -/
def Vehicle.fromStr : String → Option Vehicle
  | "bus" => some Vehicle.bus
  | "tram" => some Vehicle.tram
  | "trolley" => some Vehicle.trolley
  | _ => none

/-- gtfs.rs 54-58. -/
structure RouteInfo where
  id : RouteId
  name : RouteName
deriving DecidableEq

/-- Rust `HashMap<K, V>` modelled as a function into `Option`. -/
def HMap (K V : Type) : Type := K → Option V

def HMap.empty {K V : Type} : HMap K V := fun _ => none

/-- `HashMap::insert`: the updated map.  The previous value at the key, which
the source only logs as a duplicate warning before it is overwritten, is
`m k`. -/
def HMap.insert {K V : Type} [DecidableEq K] (m : HMap K V) (k : K) (v : V) :
    HMap K V := fun q => if q = k then some v else m q

/-- gtfs.rs 64-70. -/
structure RoutesFeed where
  tram : HMap RouteNumber RouteInfo
  trolley : HMap RouteNumber RouteInfo
  bus : HMap RouteNumber RouteInfo
  all : HMap RouteId RouteName

def RoutesFeed.empty : RoutesFeed :=
  ⟨HMap.empty, HMap.empty, HMap.empty, HMap.empty⟩

/-- The per-vehicle-kind route map of the feed. -/
def RoutesFeed.classMap (feed : RoutesFeed) : Vehicle → HMap RouteNumber RouteInfo
  | Vehicle.bus => feed.bus
  | Vehicle.tram => feed.tram
  | Vehicle.trolley => feed.trolley

abbrev StopsFeed := HMap StopId StopName

/-! ### Ingestion of routes.txt and stops.txt rows (gtfs.rs 125-190) -/

/-- One row of `routes.txt` after the positional split of gtfs.rs 130-136:
`id = left[0]`, `number = left[2]`, `name = right[5]`,
`vehicleField = right[3]`. -/
structure RouteRow where
  id : RouteId
  name : RouteName
  number : RouteNumber
  vehicleField : String

/-- The `RouteInfo` built from a row (gtfs.rs 144). -/
def routeInfoOf (row : RouteRow) : RouteInfo :=
  ⟨row.id, row.name⟩

/-- Processing of one `routes.txt` row (gtfs.rs 138-172): the row is recorded
in `all`, then inserted into the map of its vehicle kind when the kind token
parses; `HashMap::insert` overwrites any previous entry at the route number
and returns it, and the source merely logs the returned entry as a warning.
A row whose vehicle token does not parse is skipped with an error log. -/
def insertRouteRow (feed : RoutesFeed) (row : RouteRow) : RoutesFeed :=
  let feed2 := { feed with all := feed.all.insert row.id row.name }
  match Vehicle.fromStr row.vehicleField with
  | some Vehicle.bus =>
      { feed2 with bus := feed2.bus.insert row.number (routeInfoOf row) }
  | some Vehicle.trolley =>
      { feed2 with trolley := feed2.trolley.insert row.number (routeInfoOf row) }
  | some Vehicle.tram =>
      { feed2 with tram := feed2.tram.insert row.number (routeInfoOf row) }
  | none => feed2

/-- The routes index built from the rows of `routes.txt` in file order
(gtfs.rs 129: `routes.lines().skip(1).for_each(...)`). -/
def ingestRoutes (rows : List RouteRow) : RoutesFeed :=
  rows.foldl insertRouteRow RoutesFeed.empty

/-- Does a `routes.txt` row land in the map of vehicle kind `c` at route
number `n`? -/
def routeMatch (c : Vehicle) (n : RouteNumber) (row : RouteRow) : Bool :=
  decide (Vehicle.fromStr row.vehicleField = some c ∧ row.number = n)

/-- One row of `stops.txt` after the positional split of gtfs.rs 180-184:
`id = left[0]`, `name = right[5]`. -/
structure StopRow where
  id : StopId
  name : StopName

/-- Processing of one `stops.txt` row (gtfs.rs 186-188): `HashMap::insert`,
overwriting any previous entry at the stop id and logging it. -/
def insertStopRow (stops : StopsFeed) (row : StopRow) : StopsFeed :=
  stops.insert row.id row.name

/-- The stops index built from the rows of `stops.txt` in file order. -/
def ingestStops (rows : List StopRow) : StopsFeed :=
  rows.foldl insertStopRow HMap.empty

def stopMatch (i : StopId) (row : StopRow) : Bool :=
  decide (row.id = i)

/-- Two bus rows sharing route number `5`: the duplicate-key scenario of C3. -/
def c3rows : List RouteRow :=
  [⟨"id1", "name1", "5", "bus"⟩, ⟨"id2", "name2", "5", "bus"⟩]

/-! ### stop_times.txt rows and day rollover (gtfs.rs 216-255) -/

/-- Rust `str::split(':')` on the character list of a string. -/
def splitOnChar (c : Char) : List Char → List (List Char)
  | [] => [[]]
  | ch :: rest =>
    if ch = c then [] :: splitOnChar c rest
    else
      match splitOnChar c rest with
      | seg :: segs => (ch :: seg) :: segs
      | [] => [[ch]]

def charDigit (c : Char) : Option Nat :=
  if c.isDigit then some (c.toNat - 48) else none

/-- Rust `str::parse::<u32>()`: all-digit, non-empty, within `u32` range. -/
def parseU32 (cs : List Char) : Option Nat :=
  if cs = [] then none
  else
    match cs.foldl
      (fun acc c =>
        match acc, charDigit c with
        | some n, some d => some (n * 10 + d)
        | _, _ => none)
      (some 0) with
    | some n => if n ≤ 4294967295 then some n else none
    | none => none

/-- The time-of-day field of a `stop_times.txt` row, split on the colon with
each component parsed best-effort (gtfs.rs 227-230):
`l[1].split(':').filter_map(|val| val.parse::<u32>().ok()).collect()`. -/
def parseHMS (s : String) : List Nat :=
  (splitOnChar ':' s.data).filterMap parseU32

/-- The timestamp computed for one `stop_times.txt` row (gtfs.rs 227-245).
`localTs h m s` stands for chrono's `date.and_hms_opt(h, m, s)` followed by
`.timestamp()` on the service date: the local Unix timestamp of the service
date at the given time of day, `none` when the time of day is invalid.  An
hour of 24 or more is reduced by 24 and the computed timestamp shifted
forward by 86400 seconds.  A result of `none` models a panic (the `hms[i]`
indexing of a too-short list, or the `unwrap` of `and_hms_opt`). -/
def stopTimeTimestamp (localTs : Nat → Nat → Nat → Option Int)
    (timeField : String) : Option Int :=
  match parseHMS timeField with
  | h :: m :: s :: _ =>
    let nextday := decide (24 ≤ h)
    let h2 := if 24 ≤ h then h - 24 else h
    (localTs h2 m s).map (fun ts => if nextday then ts + 86400 else ts)
  | _ => none

/-- Example local-timestamp function for concrete evaluation: service date
at epoch 0, zero timezone offset, every time of day below 24:00 valid. -/
def exLocalTs (h m s : Nat) : Option Int :=
  if h < 24 ∧ m < 60 ∧ s < 60 then some ((h * 3600 + m * 60 + s : Nat) : Int)
  else none

/-! ### Trips, stop times and the static feed (gtfs.rs 76-100) -/

/-- gtfs.rs 78-82. -/
structure Trips where
  forward_trip : List TripId
  backward_trip : List TripId
deriving DecidableEq

/-- gtfs.rs 85-90; `stop_sequence` is a `u8` in the source. -/
structure TripStop where
  timestamp : Int
  stop_id : StopId
  stop_sequence : Nat
deriving DecidableEq

/-- gtfs.rs 94-100. -/
structure StaticFeed where
  routes : RoutesFeed
  stops : StopsFeed
  trips : HMap RouteId Trips
  stop_times : HMap TripId (List TripStop)

/-! ### Queries over the static feed (gtfs.rs 298-387) -/

/-- `stops_on_route` (gtfs.rs 298-316).  The outer `Option` models the
`unwrap` on the trips lookup at gtfs.rs 302/304: `none` is a panic.  The
inner `Except` is the function's own `Result`: the stop ids of the first
trip of the requested direction that has stop-time data, in stored order. -/
def stops_on_route (feed : StaticFeed) (route_id : RouteId)
    (direction : String) : Option (Except String (List StopId)) :=
  match feed.trips route_id with
  | none => none
  | some tr =>
    let trips := if direction = "0" then tr.forward_trip else tr.backward_trip
    match trips.findSome? (fun trip => feed.stop_times trip) with
    | some stops => some (Except.ok (stops.map (fun stop => stop.stop_id)))
    | none => some (Except.error "Couldn't find stops for this route and direction")

/-- The collection loop of `arrival_timetable` (gtfs.rs 372-382): for each
trip id of the chosen direction, look up its stop times — propagating an
error for the whole query when a trip id is absent, as the `?` on
`ok_or` does — and collect the timestamps at the wanted stop that are
strictly in the future. -/
def collectTimetable (feed : StaticFeed) (stop_id : StopId) (timestamp : Int) :
    List TripId → Except String (List Int)
  | [] => Except.ok []
  | trip :: rest =>
    match feed.stop_times trip with
    | none => Except.error "Failed to fetch trip info"
    | some trip_info =>
      let here := (trip_info.filter (fun ts =>
        decide (ts.stop_id = stop_id ∧ ts.timestamp > timestamp))).map
          (fun ts => ts.timestamp)
      match collectTimetable feed stop_id timestamp rest with
      | Except.ok tl => Except.ok (here ++ tl)
      | Except.error e => Except.error e

/-- `arrival_timetable` (gtfs.rs 350-387).  `timestamp` is the value of
`Local::now().timestamp()` taken at the start of the call; the collected
future timestamps are sorted ascending by `Vec::sort`, a stable ascending
sort, modelled by `List.mergeSort`. -/
def arrival_timetable (feed : StaticFeed) (route_id : RouteId)
    (direction : String) (stop_id : StopId) (timestamp : Int) :
    Except String (List Int) :=
  match feed.trips route_id with
  | none => Except.error "Failed to find trips for this route ID"
  | some trips =>
    let trip_ids := if direction = "0" then trips.forward_trip else trips.backward_trip
    match collectTimetable feed stop_id timestamp trip_ids with
    | Except.ok timetable => Except.ok (timetable.mergeSort (fun a b => decide (a ≤ b)))
    | Except.error e => Except.error e

/-! ### The live forecast (gtfs.rs 318-348)

The decoded `FeedMessage` of the transit-realtime protocol, restricted to
the fields the source reads. -/

structure StopTimeEvent where
  time : Option Int

structure StopTimeUpdate where
  arrival : Option StopTimeEvent

structure TripUpdate where
  stop_time_update : List StopTimeUpdate

structure FeedEntity where
  id : String
  trip_update : Option TripUpdate

structure FeedMessage where
  entity : List FeedEntity

/-- Inner loop of `arrival_forecast` over one trip update's stop-time
updates (gtfs.rs 333-342): keep `time - timestamp` when strictly positive. -/
def forecastOfUpdates (timestamp : Int) : List StopTimeUpdate → List Int
  | [] => []
  | stop_time :: rest =>
    match stop_time.arrival with
    | some arrival =>
      match arrival.time with
      | some time =>
        if time - timestamp > 0 then
          (time - timestamp) :: forecastOfUpdates timestamp rest
        else
          forecastOfUpdates timestamp rest
      | none => forecastOfUpdates timestamp rest
    | none => forecastOfUpdates timestamp rest

/-- Outer loop of `arrival_forecast` over the decoded entities
(gtfs.rs 330-345): only entities whose id equals the wanted route id
contribute, through their optional trip update. -/
def forecastOfEntities (route_id : RouteId) (timestamp : Int) :
    List FeedEntity → List Int
  | [] => []
  | entity :: rest =>
    (if entity.id = route_id then
      match entity.trip_update with
      | some update => forecastOfUpdates timestamp update.stop_time_update
      | none => []
    else []) ++ forecastOfEntities route_id timestamp rest

/-- `arrival_forecast` (gtfs.rs 318-348) after a successful fetch and decode
of the realtime message; `timestamp` is the Unix time taken at the start of
the call. -/
def arrival_forecast (message : FeedMessage) (route_id : RouteId)
    (timestamp : Int) : List Int :=
  forecastOfEntities route_id timestamp message.entity

/-! ### Watch supersede model (tg_bot.rs 283-301, 584-597)

When a watch task A is already running for a chat and the user confirms a
new watch B, the handler (`save_query`, and identically `new_or_saved` and
`save_query_name`) executes in program order: first
`tokio::spawn(look_for_transport(..))` for B (tg_bot.rs 584), then a lock of
`POLL_TASKS` with `insert`, aborting the handle of A that `insert` returns
(tg_bot.rs 590-596).  A spawned task may run as soon as it is spawned,
concurrently with its spawner, so the model is a state machine with an
interleaving scheduler: an event may fire whenever it is enabled. -/

structure WatchState where
  spawnedB : Bool
  insertedB : Bool
  aEmitted : Bool
  bPolled : Bool
deriving DecidableEq

def initWatch : WatchState :=
  ⟨false, false, false, false⟩

inductive WatchEvent where
  | spawnB
  | insertAbortA
  | emitA
  | firstPollB
deriving DecidableEq

/-- Enabled events.  The handler spawns B before inserting it into
`POLL_TASKS` and aborting A (program order of tg_bot.rs 584-596); task A may
emit its notification as long as it has not been aborted; task B may run its
first poll as soon as it has been spawned. -/
def watchEnabled (s : WatchState) : WatchEvent → Bool
  | WatchEvent.spawnB => !s.spawnedB
  | WatchEvent.insertAbortA => s.spawnedB && !s.insertedB
  | WatchEvent.emitA => !s.insertedB && !s.aEmitted
  | WatchEvent.firstPollB => s.spawnedB && !s.bPolled

def watchApply (s : WatchState) : WatchEvent → WatchState
  | WatchEvent.spawnB => { s with spawnedB := true }
  | WatchEvent.insertAbortA => { s with insertedB := true }
  | WatchEvent.emitA => { s with aEmitted := true }
  | WatchEvent.firstPollB => { s with bPolled := true }

def watchStep (s : WatchState) (e : WatchEvent) : Option WatchState :=
  if watchEnabled s e then some (watchApply s e) else none

/-- Run a sequence of scheduled events from a state; `none` when an event
fires while not enabled. -/
def watchRun : WatchState → List WatchEvent → Option WatchState
  | s, [] => some s
  | s, e :: rest =>
    match watchStep s e with
    | some s2 => watchRun s2 rest
    | none => none

/-! ### Concrete feeds and messages used for evaluation -/

/-- A feed with route `R` whose forward trip `T1` serves stop `S` at 300,
100 and 50 seconds. -/
def feedW : StaticFeed where
  routes := RoutesFeed.empty
  stops := HMap.empty
  trips := fun r => if r = "R" then some ⟨["T1"], []⟩ else none
  stop_times := fun t =>
    if t = "T1" then some [⟨300, "S", 1⟩, ⟨100, "S", 0⟩, ⟨50, "S", 2⟩] else none

/-- A feed with route `R` whose forward trip list is empty while the
backward list holds `T1`; no trip has stop-time data. -/
def feedEmptyDir : StaticFeed where
  routes := RoutesFeed.empty
  stops := HMap.empty
  trips := fun r => if r = "R" then some ⟨[], ["T1"]⟩ else none
  stop_times := fun _ => none

/-- A feed with route `R` whose forward trips are `T1` (with stop-time data
at stop `S`) and `T2` (absent from the stop-times index). -/
def feedMissing : StaticFeed where
  routes := RoutesFeed.empty
  stops := HMap.empty
  trips := fun r => if r = "R" then some ⟨["T1", "T2"], []⟩ else none
  stop_times := fun t => if t = "T1" then some [⟨100, "S", 0⟩] else none

/-- A realtime message with one matching entity (an arrival at 105 plus an
update with no arrival) and one entity for another route. -/
def msgW : FeedMessage :=
  ⟨[⟨"5", some ⟨[⟨some ⟨some 105⟩⟩, ⟨none⟩]⟩⟩, ⟨"7", none⟩]⟩

/-- A realtime message with no entities. -/
def msgEmpty : FeedMessage :=
  ⟨[]⟩

/-- C1: on a tick where the live candidate list (forecast values with
`waitingSeconds - leeway*60 > 0`) is non-empty and every candidate's
`timeLeft = waitingSeconds - leeway*60` is at least 60, the decision is
keep-waiting, for every static timetable whatsoever — so the fallback branch
cannot influence the tick even if one of its entries would fire. -/
theorem reconciliation_precedence (forecast timetable : List Int)
    (leeway now : Int)
    (hne : forecast.filter (fun x => decide (x - leeway * 60 > 0)) ≠ [])
    (hall : ∀ x ∈ forecast.filter (fun x => decide (x - leeway * 60 > 0)),
      60 ≤ x - leeway * 60) :
    look_for_transport_tick forecast timetable leeway now = Decision.keepWaiting := by
  have h1 : (forecast.filter (fun x => decide (x - leeway * 60 > 0))).isEmpty = false := by
    cases h : forecast.filter (fun x => decide (x - leeway * 60 > 0)) with
    | nil => exact absurd h hne
    | cons a l => rfl
  have h2 : (forecast.filter (fun x => decide (x - leeway * 60 > 0))).any
      (fun time =>
        match checkedSub time (leeway * 60) with
        | some time_left => decide (time_left < 60)
        | none => false) = false := by
    rw [List.any_eq_false]
    intro x hx
    have hx60 := hall x hx
    unfold checkedSub
    by_cases hr : i64Min ≤ x - leeway * 60 ∧ x - leeway * 60 ≤ i64Max
    · simp only [hr, if_true]
      simp
      omega
    · simp only [hr, if_false]
      simp
  simp only [look_for_transport_tick]
  rw [h1, h2]
  simp only [Bool.false_eq_true, if_false]

/-- C1 witness: forecast `[300]`, leeway 1 minute, now 0, and a timetable
entry at 90 seconds (which would fire the fallback if it were evaluated):
the tick keeps waiting. -/
theorem reconciliation_precedence_witness :
    look_for_transport_tick [300] [90] 1 0 = Decision.keepWaiting :=
  reconciliation_precedence [300] [90] 1 0 (by decide) (by decide)

/-- C2: on a tick with an empty live candidate list, a timetable entry at
exactly `now + leeway*60 + 59` fires the schedule fallback, while a timetable
whose every entry is either at most `now + leeway*60` (filtered out) or at
least `now + leeway*60 + 60` keeps waiting. -/
theorem reconciliation_fallback_boundary (forecast timetable : List Int)
    (leeway now : Int)
    (hempty : forecast.filter (fun x => decide (x - leeway * 60 > 0)) = []) :
    ((now + leeway * 60 + 59) ∈ timetable →
      look_for_transport_tick forecast timetable leeway now = Decision.notifyFallback)
    ∧ ((∀ t ∈ timetable, t ≤ now + leeway * 60 ∨ now + leeway * 60 + 60 ≤ t) →
      look_for_transport_tick forecast timetable leeway now = Decision.keepWaiting) := by
  have h1 : (forecast.filter (fun x => decide (x - leeway * 60 > 0))).isEmpty = true := by
    rw [hempty]; rfl
  constructor
  · intro hmem
    have h2 : (timetable.filterMap
        (fun t => if t - (now + leeway * 60) > 0 then some (t - (now + leeway * 60)) else none)).any
        (fun t => decide (t < 60)) = true := by
      rw [List.any_eq_true]
      refine ⟨59, ?_, by decide⟩
      rw [List.mem_filterMap]
      refine ⟨now + leeway * 60 + 59, hmem, ?_⟩
      have : now + leeway * 60 + 59 - (now + leeway * 60) = 59 := by ring
      rw [if_pos (by omega), this]
    simp only [look_for_transport_tick]
    rw [h1, h2]
    simp only [if_true]
  · intro hfar
    have h2 : (timetable.filterMap
        (fun t => if t - (now + leeway * 60) > 0 then some (t - (now + leeway * 60)) else none)).any
        (fun t => decide (t < 60)) = false := by
      rw [List.any_eq_false]
      intro v hv
      rw [List.mem_filterMap] at hv
      obtain ⟨t, ht, hft⟩ := hv
      rcases hfar t ht with hle | hge
      · rw [if_neg (by omega)] at hft
        exact absurd hft (by simp)
      · rw [if_pos (by omega)] at hft
        have : v = t - (now + leeway * 60) := by
          injection hft with h; omega
        simp
        omega
    simp only [look_for_transport_tick]
    rw [h1, h2]
    simp only [if_true, Bool.false_eq_true, if_false]

/-- C2 witness: empty forecast, leeway 1 minute, now 0: a timetable entry at
119 = 60 + 59 seconds fires the fallback; an entry at 120 = 60 + 60 seconds
keeps waiting. -/
theorem reconciliation_fallback_boundary_witness :
    look_for_transport_tick [] [119] 1 0 = Decision.notifyFallback
    ∧ look_for_transport_tick [] [120] 1 0 = Decision.keepWaiting :=
  ⟨(reconciliation_fallback_boundary [] [119] 1 0 (by decide)).1 (by decide),
   (reconciliation_fallback_boundary [] [120] 1 0 (by decide)).2 (by decide)⟩

/-- Effect of one `routes.txt` row on one entry of one vehicle-kind map:
the entry is overwritten exactly when the row matches that kind and number. -/
theorem insertRouteRow_classMap (feed : RoutesFeed) (row : RouteRow)
    (c : Vehicle) (n : RouteNumber) :
    (insertRouteRow feed row).classMap c n =
      if routeMatch c n row then some (routeInfoOf row) else feed.classMap c n := by
  unfold insertRouteRow routeMatch
  cases hv : Vehicle.fromStr row.vehicleField with
  | none => cases c <;> simp [RoutesFeed.classMap, hv]
  | some v =>
    cases v <;> cases c <;>
      by_cases hn : n = row.number <;>
        simp [RoutesFeed.classMap, HMap.insert, hv, hn] <;>
          simp [eq_comm] at hn ⊢ <;> simp [hn]

/-- Folding `routes.txt` rows over any accumulator: an entry of a
vehicle-kind map comes from the last matching row, else from the
accumulator. -/
theorem foldl_insertRouteRow_classMap (c : Vehicle) (n : RouteNumber) :
    ∀ (rows : List RouteRow) (acc : RoutesFeed),
      (rows.foldl insertRouteRow acc).classMap c n =
        match rows.reverse.find? (routeMatch c n) with
        | some row => some (routeInfoOf row)
        | none => acc.classMap c n
  | [], acc => by simp
  | row :: rest, acc => by
    rw [List.foldl_cons, foldl_insertRouteRow_classMap c n rest]
    rw [List.reverse_cons, List.find?_append]
    cases h : rest.reverse.find? (routeMatch c n) with
    | some r => simp [Option.or]
    | none =>
      by_cases hp : routeMatch c n row
      · simp [Option.or, List.find?, hp, insertRouteRow_classMap]
      · simp only [Bool.not_eq_true] at hp
        simp [Option.or, List.find?, hp, insertRouteRow_classMap]

/-- Effect of one `stops.txt` row on one entry of the stops index. -/
theorem insertStopRow_lookup (stops : StopsFeed) (row : StopRow) (i : StopId) :
    insertStopRow stops row i =
      if stopMatch i row then some row.name else stops i := by
  unfold insertStopRow stopMatch HMap.insert
  by_cases hi : i = row.id <;> simp [eq_comm, hi]

/-- Folding `stops.txt` rows over any accumulator: an entry of the stops
index comes from the last matching row, else from the accumulator. -/
theorem foldl_insertStopRow_lookup (i : StopId) :
    ∀ (rows : List StopRow) (acc : StopsFeed),
      rows.foldl insertStopRow acc i =
        match rows.reverse.find? (stopMatch i) with
        | some row => some row.name
        | none => acc i
  | [], acc => by simp
  | row :: rest, acc => by
    rw [List.foldl_cons, foldl_insertStopRow_lookup i rest]
    rw [List.reverse_cons, List.find?_append]
    cases h : rest.reverse.find? (stopMatch i) with
    | some r => simp [Option.or]
    | none =>
      by_cases hp : stopMatch i row
      · simp [Option.or, List.find?, hp, insertStopRow_lookup]
      · simp only [Bool.not_eq_true] at hp
        simp [Option.or, List.find?, hp, insertStopRow_lookup]

/-- C3 counterexample: ingesting two bus rows that share route number `5`
retains the `RouteInfo` of the second row, not the first — Rust
`HashMap::insert` overwrites, so duplicate-key ingestion is last-wins, not
first-wins. -/
theorem ingest_duplicate_first_wins_cex :
    (ingestRoutes c3rows).bus "5" = some ⟨"id2", "name2"⟩
    ∧ (ingestRoutes c3rows).bus "5" ≠ some ⟨"id1", "name1"⟩ := by
  constructor
  · decide
  · decide

/-- C3 amended: duplicate-key ingestion is last-wins.  For every row
sequence, vehicle kind and route number, the built index holds the
`RouteInfo` of the last row with that number in that vehicle kind (earlier
occurrences are overwritten, the overwritten entry being logged with a
warning); likewise every stops-index entry holds the name of the last row
with that stop id. -/
theorem ingest_duplicate_last_wins (rows : List RouteRow) (c : Vehicle)
    (n : RouteNumber) (srows : List StopRow) (i : StopId) :
    (ingestRoutes rows).classMap c n =
      (rows.reverse.find? (routeMatch c n)).map routeInfoOf
    ∧ ingestStops srows i =
      (srows.reverse.find? (stopMatch i)).map (fun row => row.name) := by
  constructor
  · rw [ingestRoutes, foldl_insertRouteRow_classMap c n rows RoutesFeed.empty]
    cases rows.reverse.find? (routeMatch c n) with
    | some r => rfl
    | none => cases c <;> rfl
  · rw [ingestStops, foldl_insertStopRow_lookup i srows HMap.empty]
    cases srows.reverse.find? (stopMatch i) with
    | some r => rfl
    | none => rfl

/-- C5: time rollover during ingestion.  For every local-timestamp function
and every stop-time row whose parsed time field is `h :: m :: s :: _`: when
`24 ≤ h` the computed timestamp is the local timestamp of the service date
at `(h-24):m:s` plus 86400 seconds, and when `h < 24` it is the local
timestamp of the service date at `h:m:s`. -/
theorem stop_time_rollover (localTs : Nat → Nat → Nat → Option Int)
    (timeField : String) (h m s : Nat) (rest : List Nat)
    (hparse : parseHMS timeField = h :: m :: s :: rest) :
    (24 ≤ h → stopTimeTimestamp localTs timeField =
      (localTs (h - 24) m s).map (fun ts => ts + 86400))
    ∧ (h < 24 → stopTimeTimestamp localTs timeField = localTs h m s) := by
  unfold stopTimeTimestamp
  rw [hparse]
  constructor
  · intro hge
    have hd : decide (24 ≤ h) = true := decide_eq_true hge
    simp only [hd, if_pos hge, if_true]
  · intro hlt
    have hng : ¬ 24 ≤ h := by omega
    have hd : decide (24 ≤ h) = false := decide_eq_false hng
    simp only [hd, if_neg hng, if_false]
    cases localTs h m s <;> rfl

/-- C5 witness: a `25:10:00` row on a zero-epoch service date lands at
`1:10:00` of the next day (4200 + 86400 = 90600 seconds); an `07:05:03` row
lands the same day at 25503 seconds. -/
theorem stop_time_rollover_witness :
    stopTimeTimestamp exLocalTs "25:10:00" = some 90600
    ∧ stopTimeTimestamp exLocalTs "07:05:03" = some 25503 :=
  ⟨((stop_time_rollover exLocalTs "25:10:00" 25 10 0 [] (by decide)).1
      (by decide)).trans (by decide),
   ((stop_time_rollover exLocalTs "07:05:03" 7 5 3 [] (by decide)).2
      (by decide)).trans (by decide)⟩

/-- Every timestamp collected by the loop of `arrival_timetable` is strictly
in the future. -/
theorem collectTimetable_future (feed : StaticFeed) (stop_id : StopId)
    (timestamp : Int) :
    ∀ (trips : List TripId) (l : List Int),
      collectTimetable feed stop_id timestamp trips = Except.ok l →
      ∀ x ∈ l, timestamp < x
  | [], l => by
    intro hok x hx
    simp only [collectTimetable] at hok
    cases hok
    simp at hx
  | trip :: rest, l => by
    intro hok x hx
    simp only [collectTimetable] at hok
    cases hst : feed.stop_times trip with
    | none => rw [hst] at hok; cases hok
    | some trip_info =>
      rw [hst] at hok
      cases hrec : collectTimetable feed stop_id timestamp rest with
      | error e => rw [hrec] at hok; cases hok
      | ok tl =>
        rw [hrec] at hok
        cases hok
        rcases List.mem_append.mp hx with hx1 | hx2
        · rcases List.mem_map.mp hx1 with ⟨ts, hts, hxe⟩
          have := List.of_mem_filter hts
          have hc := of_decide_eq_true this
          omega
        · exact collectTimetable_future feed stop_id timestamp rest tl hrec x hx2

/-- C4: whenever `arrival_timetable` succeeds, its result is non-decreasing
(`Sorted (· ≤ ·)`, duplicates permitted) and every element is strictly
greater than the `timestamp` taken at the moment of computation. -/
theorem arrival_timetable_sorted_future (feed : StaticFeed)
    (route_id : RouteId) (direction : String) (stop_id : StopId)
    (timestamp : Int) (l : List Int)
    (hok : arrival_timetable feed route_id direction stop_id timestamp =
      Except.ok l) :
    l.Sorted (· ≤ ·) ∧ ∀ x ∈ l, timestamp < x := by
  unfold arrival_timetable at hok
  cases htr : feed.trips route_id with
  | none => rw [htr] at hok; cases hok
  | some trips =>
    rw [htr] at hok
    dsimp only at hok
    cases hc : collectTimetable feed stop_id timestamp
        (if direction = "0" then trips.forward_trip else trips.backward_trip) with
    | error e => rw [hc] at hok; cases hok
    | ok timetable =>
      rw [hc] at hok
      cases hok
      constructor
      · have hs : (timetable.mergeSort (fun a b => decide (a ≤ b))).Pairwise
            (fun a b : Int => decide (a ≤ b) = true) := by
          apply List.sorted_mergeSort
          · intro a b c hab hbc
            exact decide_eq_true
              (le_trans (of_decide_eq_true hab) (of_decide_eq_true hbc))
          · intro a b
            rcases le_total a b with hle | hle
            · simp [decide_eq_true hle]
            · simp [decide_eq_true hle]
        refine List.Pairwise.imp ?_ hs
        intro a b hab
        exact of_decide_eq_true hab
      · intro x hx
        have hx2 : x ∈ timetable := List.mem_mergeSort.mp hx
        exact collectTimetable_future feed stop_id timestamp _ timetable hc x hx2

/-- C4 witness: on `feedW` at time 60 the query succeeds with `[100, 300]`,
which is sorted and beyond 60. -/
theorem arrival_timetable_sorted_future_witness :
    ([100, 300] : List Int).Sorted (· ≤ ·) ∧ ∀ x ∈ ([100, 300] : List Int), (60:Int) < x :=
  arrival_timetable_sorted_future feedW "R" "0" "S" 60 [100, 300]
    (by simp [arrival_timetable, collectTimetable, feedW, List.mergeSort, List.merge])

/-- C6 counterexample: route `R` is present in the trips index with an empty
forward trip list; the query for direction `0` succeeds with the empty
timetable instead of failing with NotFound. -/
theorem arrival_timetable_empty_direction_cex :
    arrival_timetable feedEmptyDir "R" "0" "S" 0 = Except.ok [] := by
  simp [arrival_timetable, collectTimetable, feedEmptyDir, List.mergeSort]

/-- C6 amended: `arrival_timetable` fails with NotFound exactly when the
route id is absent from the trips index; when the route id is present but
its trip list for the requested direction is empty, it succeeds with the
empty timetable. -/
theorem arrival_timetable_notfound_behavior (feed : StaticFeed)
    (route_id : RouteId) (direction : String) (stop_id : StopId)
    (timestamp : Int) :
    (feed.trips route_id = none →
      arrival_timetable feed route_id direction stop_id timestamp =
        Except.error "Failed to find trips for this route ID")
    ∧ (∀ tr, feed.trips route_id = some tr →
        (if direction = "0" then tr.forward_trip else tr.backward_trip) = [] →
        arrival_timetable feed route_id direction stop_id timestamp =
          Except.ok []) := by
  constructor
  · intro hn
    unfold arrival_timetable
    rw [hn]
  · intro tr htr hnil
    unfold arrival_timetable
    rw [htr]
    dsimp only
    rw [hnil]
    simp [collectTimetable, List.mergeSort]

/-- C6 amended witness: on `feedEmptyDir`, an unknown route `X` yields the
NotFound error, while route `R` with its empty forward list yields the empty
timetable. -/
theorem arrival_timetable_notfound_behavior_witness :
    arrival_timetable feedEmptyDir "X" "0" "S" 0 =
      Except.error "Failed to find trips for this route ID"
    ∧ arrival_timetable feedEmptyDir "R" "0" "S" 0 = Except.ok [] :=
  ⟨(arrival_timetable_notfound_behavior feedEmptyDir "X" "0" "S" 0).1 (by decide),
   (arrival_timetable_notfound_behavior feedEmptyDir "R" "0" "S" 0).2
     ⟨[], ["T1"]⟩ (by decide) (by decide)⟩

/-- C7 counterexample: a route id absent from the trips index makes
`stops_on_route` panic (the `unwrap` at gtfs.rs 302), modelled as `none` —
it does not surface as a NotFound error value. -/
theorem stops_on_route_panic_cex :
    stops_on_route feedEmptyDir "X" "0" = none := by
  simp [stops_on_route, feedEmptyDir]

/-- C7 amended: `stops_on_route` panics when the route id has no entry in
the trips index; when the route id is present it always returns a value:
the NotFound error when none of the direction's trips has stop-time data
(in particular when the trip list is empty), a stop list otherwise. -/
theorem stops_on_route_behavior (feed : StaticFeed) (route_id : RouteId)
    (direction : String) :
    (feed.trips route_id = none → stops_on_route feed route_id direction = none)
    ∧ (∀ tr, feed.trips route_id = some tr →
        (stops_on_route feed route_id direction).isSome = true
        ∧ ((∀ trip ∈ (if direction = "0" then tr.forward_trip else tr.backward_trip),
              feed.stop_times trip = none) →
            stops_on_route feed route_id direction =
              some (Except.error "Couldn't find stops for this route and direction"))) := by
  constructor
  · intro hn
    unfold stops_on_route
    rw [hn]
  · intro tr htr
    unfold stops_on_route
    rw [htr]
    dsimp only
    constructor
    · cases hfs : (if direction = "0" then tr.forward_trip else tr.backward_trip).findSome?
          (fun trip => feed.stop_times trip) with
      | none => rfl
      | some stops => rfl
    · intro hall
      have hn : (if direction = "0" then tr.forward_trip else tr.backward_trip).findSome?
          (fun trip => feed.stop_times trip) = none :=
        List.findSome?_eq_none_iff.mpr hall
      rw [hn]

/-- C7 amended witness: on `feedEmptyDir`, the unknown route `X` panics
(`none`), while route `R` in direction `0`, whose forward trip list is
empty, returns the NotFound error value. -/
theorem stops_on_route_behavior_witness :
    stops_on_route feedEmptyDir "X" "0" = none
    ∧ stops_on_route feedEmptyDir "R" "0" =
        some (Except.error "Couldn't find stops for this route and direction") :=
  ⟨(stops_on_route_behavior feedEmptyDir "X" "0").1 (by decide),
   ((stops_on_route_behavior feedEmptyDir "R" "0").2 ⟨[], ["T1"]⟩ (by decide)).2
     (by decide)⟩

/-- A missing stop-times entry for any trip of the list makes the collection
loop of `arrival_timetable` fail as a whole. -/
theorem collectTimetable_error_of_missing (feed : StaticFeed)
    (stop_id : StopId) (timestamp : Int) (trips : List TripId) (trip : TripId)
    (hmem : trip ∈ trips) (hnone : feed.stop_times trip = none) :
    collectTimetable feed stop_id timestamp trips =
      Except.error "Failed to fetch trip info" := by
  induction trips with
  | nil => cases hmem
  | cons head rest ih =>
    unfold collectTimetable
    cases hst : feed.stop_times head with
    | none => rfl
    | some ti =>
      dsimp only
      rcases List.mem_cons.mp hmem with he | hr
      · rw [he] at hnone
        rw [hnone] at hst
        cases hst
      · rw [ih hr]

/-- C10: when the trips index has the route but some trip id of the
requested direction is absent from the stop-times index, the whole
`arrival_timetable` query returns the fetch error, even if other trips in
the same direction do have stop-time data. -/
theorem arrival_timetable_missing_trip_error (feed : StaticFeed)
    (route_id : RouteId) (direction : String) (stop_id : StopId)
    (timestamp : Int) (tr : Trips) (trip : TripId)
    (htr : feed.trips route_id = some tr)
    (hmem : trip ∈ (if direction = "0" then tr.forward_trip else tr.backward_trip))
    (hnone : feed.stop_times trip = none) :
    arrival_timetable feed route_id direction stop_id timestamp =
      Except.error "Failed to fetch trip info" := by
  unfold arrival_timetable
  rw [htr]
  dsimp only
  rw [collectTimetable_error_of_missing feed stop_id timestamp _ trip hmem hnone]

/-- C10 witness: on `feedMissing`, trip `T2` of route `R`'s forward list has
no stop-times entry while `T1` does; the whole query errors. -/
theorem arrival_timetable_missing_trip_error_witness :
    arrival_timetable feedMissing "R" "0" "S" 0 =
      Except.error "Failed to fetch trip info" :=
  arrival_timetable_missing_trip_error feedMissing "R" "0" "S" 0
    ⟨["T1", "T2"], []⟩ "T2" (by decide) (by decide) (by decide)

/-- Membership in the inner forecast loop: exactly the strictly positive
differences of some arrival time of the updates. -/
theorem mem_forecastOfUpdates (timestamp v : Int) :
    ∀ (updates : List StopTimeUpdate),
      v ∈ forecastOfUpdates timestamp updates ↔
        ∃ stu ∈ updates, ∃ a, stu.arrival = some a ∧ ∃ t, a.time = some t ∧
          0 < t - timestamp ∧ v = t - timestamp
  | [] => by simp [forecastOfUpdates]
  | stop_time :: rest => by
    cases ha : stop_time.arrival with
    | none =>
      simp [forecastOfUpdates, ha, mem_forecastOfUpdates timestamp v rest]
    | some arrival =>
      cases ht : arrival.time with
      | none =>
        simp [forecastOfUpdates, ha, ht, mem_forecastOfUpdates timestamp v rest]
      | some time =>
        by_cases hpos : time - timestamp > 0
        · have hpos2 : timestamp < time := by omega
          simp [forecastOfUpdates, ha, ht, hpos, hpos2,
            mem_forecastOfUpdates timestamp v rest]
        · have hpos2 : ¬ timestamp < time := by omega
          simp [forecastOfUpdates, ha, ht, hpos, hpos2,
            mem_forecastOfUpdates timestamp v rest]

/-- Membership in the outer forecast loop over the entities. -/
theorem mem_forecastOfEntities (route_id : RouteId) (timestamp v : Int) :
    ∀ (entities : List FeedEntity),
      v ∈ forecastOfEntities route_id timestamp entities ↔
        ∃ e ∈ entities, e.id = route_id ∧ ∃ u, e.trip_update = some u ∧
          ∃ stu ∈ u.stop_time_update, ∃ a, stu.arrival = some a ∧
            ∃ t, a.time = some t ∧ 0 < t - timestamp ∧ v = t - timestamp
  | [] => by simp [forecastOfEntities]
  | entity :: rest => by
    by_cases hid : entity.id = route_id
    · cases hu : entity.trip_update with
      | none =>
        simp [forecastOfEntities, hid, hu,
          mem_forecastOfEntities route_id timestamp v rest]
      | some update =>
        simp [forecastOfEntities, hid, hu,
          mem_forecastOfUpdates timestamp v update.stop_time_update,
          mem_forecastOfEntities route_id timestamp v rest]
    · simp [forecastOfEntities, hid,
        mem_forecastOfEntities route_id timestamp v rest]

/-- C9: every value returned by `arrival_forecast` is strictly positive and
equals `arrivalEpoch - now` for some stop-time update of an entity whose id
equals the wanted route id; and when no entity, update or strictly positive
difference exists, the result is the empty collection. -/
theorem arrival_forecast_post (message : FeedMessage) (route_id : RouteId)
    (timestamp : Int) :
    (∀ v ∈ arrival_forecast message route_id timestamp,
      0 < v ∧ ∃ e ∈ message.entity, e.id = route_id ∧
        ∃ u, e.trip_update = some u ∧
          ∃ stu ∈ u.stop_time_update, ∃ a, stu.arrival = some a ∧
            ∃ t, a.time = some t ∧ v = t - timestamp)
    ∧ ((¬ ∃ e ∈ message.entity, e.id = route_id ∧
          ∃ u, e.trip_update = some u ∧
            ∃ stu ∈ u.stop_time_update, ∃ a, stu.arrival = some a ∧
              ∃ t, a.time = some t ∧ 0 < t - timestamp) →
        arrival_forecast message route_id timestamp = []) := by
  constructor
  · intro v hv
    rcases (mem_forecastOfEntities route_id timestamp v message.entity).mp hv
      with ⟨e, he, hid, u, hu, stu, hstu, a, haa, t, htt, hp, hve⟩
    refine ⟨by omega, e, he, hid, u, hu, stu, hstu, a, haa, t, htt, hve⟩
  · intro hnone
    rw [List.eq_nil_iff_forall_not_mem]
    intro v hv
    rcases (mem_forecastOfEntities route_id timestamp v message.entity).mp hv
      with ⟨e, he, hid, u, hu, stu, hstu, a, haa, t, htt, hp, hve⟩
    exact hnone ⟨e, he, hid, u, hu, stu, hstu, a, haa, t, htt, hp⟩

/-- C9 witness: on `msgW` (route `5`, one arrival at epoch 105) at time 100,
the value 5 is returned, is positive and traces back to that arrival; on the
entity-free `msgEmpty` the result is empty. -/
theorem arrival_forecast_post_witness :
    (0 < (5:Int) ∧ ∃ e ∈ msgW.entity, e.id = "5" ∧
      ∃ u, e.trip_update = some u ∧
        ∃ stu ∈ u.stop_time_update, ∃ a, stu.arrival = some a ∧
          ∃ t, a.time = some t ∧ (5:Int) = t - 100)
    ∧ arrival_forecast msgEmpty "5" 100 = [] :=
  ⟨(arrival_forecast_post msgW "5" 100).1 5 (by decide),
   (arrival_forecast_post msgEmpty "5" 100).2 (by
     rintro ⟨e, he, -⟩
     simp [msgEmpty] at he)⟩

/-- C8 counterexample: from the idle state the scheduler admits both the
trace spawn-B, first-poll-B — B performs its first poll while A is not yet
cancelled — and the trace spawn-B, emit-A, insert-abort-A — the superseded
watch A emits its notification before the handler aborts it.  The handler
spawns B before aborting A (tg_bot.rs 584-596), so cancellation of A does
not happen-before B's first poll. -/
theorem watch_supersede_cex :
    watchRun initWatch [WatchEvent.spawnB, WatchEvent.firstPollB] =
      some ⟨true, false, false, true⟩
    ∧ watchRun initWatch
        [WatchEvent.spawnB, WatchEvent.emitA, WatchEvent.insertAbortA] =
      some ⟨true, true, true, false⟩ := by
  constructor
  · decide
  · decide

/-- C8 amended: the abort of A is sequenced after the spawn of B, and the
abort is final: along every scheduled run, once the handler has inserted B
and aborted A without A having emitted, A never emits; the inserted flag is
stable; and the invariant that an aborted A implies a spawned B is
preserved (so with the initial state it holds in every reachable state). -/
theorem watch_supersede_order (trace : List WatchEvent) (s s2 : WatchState)
    (hrun : watchRun s trace = some s2) :
    (s.insertedB = true → s.aEmitted = false → s2.aEmitted = false)
    ∧ (s.insertedB = true → s2.insertedB = true)
    ∧ ((s.insertedB = true → s.spawnedB = true) →
        (s2.insertedB = true → s2.spawnedB = true)) := by
  induction trace generalizing s with
  | nil =>
    simp only [watchRun] at hrun
    cases hrun
    exact ⟨fun _ h => h, fun h => h, fun h => h⟩
  | cons e rest ih =>
    simp only [watchRun, watchStep] at hrun
    by_cases hen : watchEnabled s e = true
    · rw [if_pos hen] at hrun
      have ihs := ih (watchApply s e) hrun
      refine ⟨?_, ?_, ?_⟩
      · intro hins hem
        cases e with
        | spawnB => exact ihs.1 hins hem
        | insertAbortA => exact ihs.1 rfl hem
        | emitA =>
          simp [watchEnabled, hins] at hen
        | firstPollB => exact ihs.1 hins hem
      · intro hins
        cases e with
        | spawnB => exact ihs.2.1 hins
        | insertAbortA => exact ihs.2.1 rfl
        | emitA => exact ihs.2.1 hins
        | firstPollB => exact ihs.2.1 hins
      · intro hinv
        cases e with
        | spawnB => exact ihs.2.2 (fun _ => rfl)
        | insertAbortA =>
          refine ihs.2.2 (fun _ => ?_)
          simp [watchEnabled] at hen
          simp [watchApply]
          exact hen.1
        | emitA => exact ihs.2.2 hinv
        | firstPollB => exact ihs.2.2 hinv
    · rw [if_neg hen] at hrun
      cases hrun

/-- C8 amended witness: from the post-abort state (B spawned and inserted,
A aborted before emitting), running B's first poll leaves A unemitted, the
insertion stable, and the spawn invariant intact. -/
theorem watch_supersede_order_witness :
    (WatchState.mk true true false true).aEmitted = false
    ∧ (WatchState.mk true true false true).insertedB = true :=
  ⟨(watch_supersede_order [WatchEvent.firstPollB] ⟨true, true, false, false⟩
      ⟨true, true, false, true⟩ (by decide)).1 rfl rfl,
   (watch_supersede_order [WatchEvent.firstPollB] ⟨true, true, false, false⟩
      ⟨true, true, false, true⟩ (by decide)).2.1 rfl⟩

end SpbArrival
